import Mathlib

/-!
# Verification of the TidalHack2026 configuration-graph core

A shallow embedding of the core described in `spec.md`: the graph model
and validator, the preset catalog and merge, the config model and the
evaluation orchestrator, as implemented in `src/app/interactive/page.tsx`
and `src/app/workbench/page.tsx`.

Node ids in the interactive surface come from a closed library of five
stage ids (`input`, `gate`, `limits`, `unmatched`, `evaluate`); the id
doubles as the stage kind.  We model them as a closed inductive type.
-/

namespace TidalHack

/-- The five stage ids of the library in `src/app/interactive/page.tsx`
(`library` array, each with `unique: true`).  The `id` is also the
stage's kind, as the spec states. -/
inductive StageId
  | input
  | gate
  | limits
  | unmatched
  | evaluate
deriving DecidableEq, Repr

/-- `item.title` of the library entries in `src/app/interactive/page.tsx`. -/
def stageTitle : StageId → String
  | .input => "Input"
  | .gate => "Gate"
  | .limits => "Limits"
  | .unmatched => "Unmatched"
  | .evaluate => "Evaluate"

/-- A node placed on the board: a React-Flow node, of which the core uses
the `id` (also the kind) and the presentation-only `position`. -/
structure BoardNode where
  id : StageId
  position : Int × Int
deriving DecidableEq, Repr

/-- A directed edge `(source, target)` between board nodes.  React-Flow
edges additionally carry style annotations (`type: "smoothstep"`,
`animated`), which are presentation-only per the spec. -/
structure BoardEdge where
  source : StageId
  target : StageId
deriving DecidableEq, Repr

/-- `isValidGraph` from `src/app/interactive/page.tsx` (lines 185–191):
the edge-key set contains `"input->gate"` (with ids drawn from the closed
library, the string key `s + "->" + t` determines the pair `(s, t)`),
some node has id `evaluate`, and some edge targets `evaluate`. -/
def isValidGraph (nodes : List BoardNode) (edges : List BoardEdge) : Bool :=
  let hasEvaluate := nodes.any (fun n => n.id == .evaluate)
  let hasInputGate := edges.any (fun e => e.source == .input && e.target == .gate)
  let hasToEvaluate := edges.any (fun e => e.target == .evaluate)
  hasEvaluate && hasInputGate && hasToEvaluate

end TidalHack

namespace TidalHack

/-- C1 helper: the three-node, two-edge example graph of the spec. -/
def exampleNodes : List BoardNode :=
  [⟨.input, (0, 0)⟩, ⟨.gate, (1, 0)⟩, ⟨.evaluate, (2, 0)⟩]

/-- C1 helper: edges `input→gate` and `gate→evaluate`. -/
def exampleEdges : List BoardEdge :=
  [⟨.input, .gate⟩, ⟨.gate, .evaluate⟩]

end TidalHack

namespace TidalHack

/-- The board-session state of the `Graph` component in
`src/app/interactive/page.tsx`: the React-Flow `nodes` and `edges`
states, the `usedIds` set (modelled as a duplicate-free insertion-order
list, as a JS `Set` iterates), and the `warning` banner. -/
structure BoardState where
  nodes : List BoardNode
  edges : List BoardEdge
  usedIds : List StageId
  warning : Option String
deriving DecidableEq, Repr

/-- The empty board the session starts with (`useNodesState([])`,
`useEdgesState([])`, `useState(new Set())`, `useState(null)`). -/
def boardInit : BoardState := ⟨[], [], [], none⟩

/-- The position a new node gets in `addFromLibrary`: the drop position
when given, else the grid slot `baseX/baseY` computed from
`nextIndex = nodes.length`. -/
def addPosition (pos : Option (Int × Int)) (nextIndex : Nat) : Int × Int :=
  match pos with
  | some p => p
  | none => (-200 + (Int.ofNat (nextIndex / 3)) * 220,
             40 + (Int.ofNat (nextIndex % 3)) * 120)

/-- `new Set(prev).add(i)`: insertion-order set add. -/
def usedInsert (l : List StageId) (i : StageId) : List StageId :=
  if l.contains i then l else l ++ [i]

/-- `addFromLibrary` from `src/app/interactive/page.tsx` (lines 348–368).
Every library item has `unique: true`, so the duplicate check always
runs: if the id is in `usedIds` or a node with that id is on the board,
only the warning is set; otherwise the node is appended and the id is
added to `usedIds`. -/
def addFromLibrary (s : BoardState) (itemId : StageId)
    (pos : Option (Int × Int)) : BoardState :=
  if s.usedIds.contains itemId || s.nodes.any (fun n => n.id == itemId) then
    { s with warning := some (stageTitle itemId ++ " is already on the board.") }
  else
    { s with
      nodes := s.nodes ++ [{ id := itemId, position := addPosition pos s.nodes.length }],
      usedIds := usedInsert s.usedIds itemId }

/-- Modelled from the spec: node deletion on the interactive board is
performed by the `reactflow` library (via `onNodesChange`/`onEdgesChange`
wired in `src/app/interactive/page.tsx` lines 425–443), whose source is
not part of this repository.  Spec §4.1: `removeNode(id)` removes the
node and all edges incident to it, synchronously.  `usedIds` and
`warning` are React state of the page and are not touched by node
deletion. -/
def removeNode (s : BoardState) (i : StageId) : BoardState :=
  { s with
    nodes := s.nodes.filter (fun n => n.id != i),
    edges := s.edges.filter (fun e => e.source != i && e.target != i) }

/-- Modelled from the spec: `onConnect` delegates to the `reactflow`
library's `addEdge`, whose source is not part of this repository.  Spec
§3/§4.1: duplicate edges between the same ordered pair are idempotent;
otherwise the edge is inserted. -/
def connect (s : BoardState) (src tgt : StageId) : BoardState :=
  if s.edges.contains ⟨src, tgt⟩ then s
  else { s with edges := s.edges ++ [⟨src, tgt⟩] }

/-- The board mutations a session can perform. -/
inductive BoardOp
  | add (itemId : StageId) (pos : Option (Int × Int))
  | remove (i : StageId)
  | connectOp (src tgt : StageId)
deriving Repr

/-- Apply one board mutation. -/
def applyOp (s : BoardState) : BoardOp → BoardState
  | .add i pos => addFromLibrary s i pos
  | .remove i => removeNode s i
  | .connectOp a b => connect s a b

lemma contains_append_left (l m : List StageId) (k : StageId)
    (h : l.contains k = true) : (l ++ m).contains k = true := by
  induction l with
  | nil => simp [List.contains] at h
  | cons a t ih =>
    simp only [List.cons_append, List.contains, List.elem_cons] at h ⊢
    cases hk : k == a with
    | true => simp [hk]
    | false =>
      simp only [hk] at h ⊢
      exact ih h

lemma usedInsert_contains (l : List StageId) (i k : StageId)
    (h : l.contains k = true) : (usedInsert l i).contains k = true := by
  unfold usedInsert
  split
  · exact h
  · exact contains_append_left l [i] k h

end TidalHack

open TidalHack

/-- C1: the validator accepts a graph iff an `evaluate` node exists, an
edge `input→gate` exists (exact ordered pair), and some edge targets the
`evaluate` node; the spec's three-node example is valid, and removing the
`input→gate` edge, or the `evaluate` node, makes it invalid. -/
theorem c1_validator_iff :
    (∀ (nodes : List BoardNode) (edges : List BoardEdge),
      isValidGraph nodes edges = true ↔
        ((∃ n ∈ nodes, n.id = StageId.evaluate) ∧
         (∃ e ∈ edges, e.source = StageId.input ∧ e.target = StageId.gate) ∧
         (∃ e ∈ edges, e.target = StageId.evaluate))) ∧
    isValidGraph exampleNodes exampleEdges = true ∧
    isValidGraph exampleNodes [⟨.gate, .evaluate⟩] = false ∧
    isValidGraph [⟨.input, (0, 0)⟩, ⟨.gate, (1, 0)⟩] exampleEdges = false := by
  refine ⟨?_, by decide, by decide, by decide⟩
  intro nodes edges
  simp [isValidGraph, List.any_eq_true, and_assoc]

/-- C8: for every board state and node id, `removeNode` removes the node
and every edge with that id as source or target, so no dangling edge is
observable after the operation. -/
theorem c8_removeNode_no_dangling (s : BoardState) (i : StageId) :
    ((removeNode s i).nodes.all (fun n => n.id != i) = true) ∧
    ((removeNode s i).edges.all (fun e => e.source != i && e.target != i) = true) ∧
    (removeNode s i).edges = s.edges.filter (fun e => e.source != i && e.target != i) := by
  refine ⟨?_, ?_, rfl⟩
  · simp only [removeNode, List.all_eq_true]
    intro n hn
    exact (List.mem_filter.mp hn).2
  · simp only [removeNode, List.all_eq_true]
    intro e he
    exact (List.mem_filter.mp he).2

/-- C8 witness at a concrete board. -/
theorem c8_removeNode_no_dangling_witness :
    (((removeNode ⟨exampleNodes, exampleEdges, [], none⟩ .gate).nodes.all
        (fun n => n.id != .gate)) = true) ∧
    (((removeNode ⟨exampleNodes, exampleEdges, [], none⟩ .gate).edges.all
        (fun e => e.source != .gate && e.target != .gate)) = true) :=
  ⟨(c8_removeNode_no_dangling ⟨exampleNodes, exampleEdges, [], none⟩ .gate).1,
   (c8_removeNode_no_dangling ⟨exampleNodes, exampleEdges, [], none⟩ .gate).2.1⟩

/-- C7 helper: place `input` on the empty board, then delete it. -/
def boardAfterAddRemove : BoardState :=
  removeNode (addFromLibrary boardInit .input none) .input

/-- C7 counterexample: after adding and then removing the `input` node,
no node of kind `input` exists on the board, yet `addFromLibrary` refuses
to insert it again (nodes unchanged, "already placed" warning), so
"fails exactly when a node of that kind already exists on the board" is
false: it also fails when the kind is merely recorded in `usedIds`. -/
theorem c7_counterexample :
    (boardAfterAddRemove.nodes.any (fun n => n.id == .input) = false) ∧
    (addFromLibrary boardAfterAddRemove .input none).nodes = boardAfterAddRemove.nodes ∧
    (addFromLibrary boardAfterAddRemove .input none).warning =
      some "Input is already on the board." := by
  refine ⟨by decide, rfl, rfl⟩

/-- C10: `usedIds` only grows under every board operation, and once a
stage id is in `usedIds`, `addFromLibrary` refuses it with the
"already placed" notice even after its node has been removed from the
board — a removed stage can never be re-added in the same session. -/
theorem c10_usedIds_monotone :
    (∀ (s : BoardState) (op : BoardOp) (k : StageId),
      s.usedIds.contains k = true → (applyOp s op).usedIds.contains k = true) ∧
    (∀ (s : BoardState) (i : StageId) (pos : Option (Int × Int)),
      s.usedIds.contains i = true →
        addFromLibrary (removeNode s i) i pos =
          { removeNode s i with
            warning := some (stageTitle i ++ " is already on the board.") }) := by
  constructor
  · intro s op k h
    cases op with
    | add i pos =>
      simp only [applyOp, addFromLibrary]
      split
      · exact h
      · exact usedInsert_contains s.usedIds i k h
    | remove i => exact h
    | connectOp a b =>
      simp only [applyOp, connect]
      split <;> exact h
  · intro s i pos h
    have hc : (removeNode s i).usedIds.contains i = true := h
    simp only [addFromLibrary, hc, Bool.true_or, if_pos]

/-- C10 witness: with `input` recorded in `usedIds` but no longer on the
board, removal keeps it recorded and re-adding is refused. -/
theorem c10_usedIds_monotone_witness :
    ((applyOp ⟨[], [], [.input], none⟩ (.remove .input)).usedIds.contains .input = true) ∧
    (addFromLibrary (removeNode ⟨[], [], [.input], none⟩ .input) .input none =
      { removeNode ⟨[], [], [.input], none⟩ .input with
        warning := some (stageTitle .input ++ " is already on the board.") }) :=
  ⟨c10_usedIds_monotone.1 ⟨[], [], [.input], none⟩ (.remove .input) .input (by decide),
   c10_usedIds_monotone.2 ⟨[], [], [.input], none⟩ .input none (by decide)⟩

/-- C7 amended: `addFromLibrary` fails with the "already placed" notice —
leaving nodes, edges and `usedIds` unchanged — exactly when the kind is
recorded in `usedIds` or a node of that kind is on the board (not merely
when a node of that kind currently exists on the board); otherwise it
inserts the new node. -/
theorem c7_amended (s : BoardState) (i : StageId) (pos : Option (Int × Int)) :
    ((addFromLibrary s i pos).nodes = s.nodes ↔
      (s.usedIds.contains i || s.nodes.any (fun n => n.id == i)) = true) ∧
    ((s.usedIds.contains i || s.nodes.any (fun n => n.id == i)) = true →
      addFromLibrary s i pos =
        { s with warning := some (stageTitle i ++ " is already on the board.") }) ∧
    ((s.usedIds.contains i || s.nodes.any (fun n => n.id == i)) = false →
      addFromLibrary s i pos =
        { s with
          nodes := s.nodes ++ [{ id := i, position := addPosition pos s.nodes.length }],
          usedIds := s.usedIds ++ [i] }) := by
  have Efail : (s.usedIds.contains i || s.nodes.any (fun n => n.id == i)) = true →
      addFromLibrary s i pos =
        { s with warning := some (stageTitle i ++ " is already on the board.") } := by
    intro ht
    unfold addFromLibrary
    split
    · rfl
    · next hc => exact absurd ht hc
  have Esucc : (s.usedIds.contains i || s.nodes.any (fun n => n.id == i)) = false →
      addFromLibrary s i pos =
        { s with
          nodes := s.nodes ++ [{ id := i, position := addPosition pos s.nodes.length }],
          usedIds := s.usedIds ++ [i] } := by
    intro hfalse
    have hcu : s.usedIds.contains i = false := (Bool.or_eq_false_iff.mp hfalse).1
    unfold addFromLibrary
    split
    · next hcond => rw [hfalse] at hcond; exact absurd hcond (by simp)
    · have hmem : i ∉ s.usedIds := by simpa using hcu
      simp [usedInsert, hmem]
  by_cases h : (s.usedIds.contains i || s.nodes.any (fun n => n.id == i)) = true
  · refine ⟨?_, fun _ => Efail h, fun hfc => ?_⟩
    · rw [Efail h]
      exact ⟨fun _ => h, fun _ => rfl⟩
    · rw [h] at hfc
      exact absurd hfc (by simp)
  · have hf : (s.usedIds.contains i || s.nodes.any (fun n => n.id == i)) = false := by
      simpa using h
    refine ⟨?_, fun ht => absurd ht h, fun _ => Esucc hf⟩
    rw [Esucc hf]
    constructor
    · intro hn
      exfalso
      have hlen := congrArg List.length hn
      simp at hlen
    · intro ht
      exact absurd ht h

/-- C7 amended, witness: on the empty board the condition is false and
the `input` node is inserted at the default grid slot. -/
theorem c7_amended_witness :
    addFromLibrary boardInit .input none =
      { boardInit with
        nodes := boardInit.nodes ++
          [{ id := .input, position := addPosition none boardInit.nodes.length }],
        usedIds := boardInit.usedIds ++ [.input] } :=
  (c7_amended boardInit .input none).2.2 (by decide)

namespace TidalHack

/-- An association-list model of a JS object with string keys and numeric
values (`Record<string, number>`), keeping key insertion order, which is
the order `JSON.stringify` serializes.  All objects built by the pages
have duplicate-free keys. -/
abbrev Obj := List (String × ℚ)

/-- `obj[k]`: the value at key `k`, if present. -/
def lookup (l : Obj) (k : String) : Option ℚ :=
  (l.find? (fun e => e.1 == k)).map Prod.snd

/-- The contribution of spread `{...a, ...b}` to a key of `a`: `b`'s
value when `b` has the key, else the original entry. -/
def ov (b : Obj) (e : String × ℚ) : String × ℚ :=
  (e.1, (lookup b e.1).getD e.2)

/-- `a` has an entry with key `k`. -/
def hasKey (l : Obj) (k : String) : Bool :=
  l.any (fun e => e.1 == k)

/-- JS object spread `{...a, ...b}`: keys of `a` in order with values
overridden by `b` where present, then the keys of `b` not in `a`, in
`b`'s order. -/
def objAssign (a b : Obj) : Obj :=
  a.map (ov b) ++ b.filter (fun e => !(hasKey a e.1))

/-- `??`-style override on an optional field: the new value when
present, else the old. -/
def oMerge {α : Type} (old new : Option α) : Option α :=
  match new with
  | some v => some v
  | none => old

/-- The fixed-shape nested object `hard_limits: { dx?, clock?, cost? }`
of `src/app/interactive/page.tsx`. -/
structure HardLimits where
  dx : Option ℚ
  clock : Option ℚ
  cost : Option ℚ
deriving DecidableEq, Repr

/-- `{}` — the empty hard-limits object (`c.hard_limits || {}`). -/
def hlEmpty : HardLimits := ⟨none, none, none⟩

/-- Spread `{...a, ...b}` on two hard-limits objects. -/
def hlMerge (a b : HardLimits) : HardLimits :=
  { dx := oMerge a.dx b.dx, clock := oMerge a.clock b.clock, cost := oMerge a.cost b.cost }

/-- The `Config` type of `src/app/interactive/page.tsx` (lines 20–26):
all five top-level fields optional in the type, `weights` a string-keyed
object, `hard_limits` the fixed-shape nested object. -/
structure Config where
  window : Option ℚ
  require_same_side : Option Bool
  weights : Option Obj
  unmatched_penalty : Option ℚ
  hard_limits : Option HardLimits
deriving DecidableEq, Repr

/-- The initial interactive config (`useState` at lines 163–169). -/
def configInit : Config :=
  { window := some 5
    require_same_side := some false
    weights := some [("dist", 1), ("clock", 3/10), ("depth", 5/100), ("size", 2/100)]
    unmatched_penalty := some 20
    hard_limits := some ⟨some 5, some 3, some 12⟩ }

/-- The `Strict` bundle of `PRESETS` (lines 29–34). -/
def presetStrict : Config :=
  { window := some (7/2)
    require_same_side := none
    weights := some [("dist", 12/10), ("clock", 35/100), ("depth", 7/100), ("size", 3/100)]
    unmatched_penalty := some 25
    hard_limits := some ⟨some (7/2), some 2, some 10⟩ }

/-- The `Balanced` bundle of `PRESETS` (lines 35–40). -/
def presetBalanced : Config :=
  { window := some 5
    require_same_side := none
    weights := some [("dist", 1), ("clock", 3/10), ("depth", 5/100), ("size", 2/100)]
    unmatched_penalty := some 20
    hard_limits := some ⟨some 5, some 3, some 12⟩ }

/-- The `Lenient` bundle of `PRESETS` (lines 41–46). -/
def presetLenient : Config :=
  { window := some 7
    require_same_side := none
    weights := some [("dist", 8/10), ("clock", 25/100), ("depth", 4/100), ("size", 15/1000)]
    unmatched_penalty := some 12
    hard_limits := some ⟨some 7, some 4, some 18⟩ }

/-- The `setConfig` updater inside `applyPreset`
(`src/app/interactive/page.tsx` lines 228–233):
`{...c, ...p, weights: {...(c.weights||{}), ...(p.weights||{})},
hard_limits: {...(c.hard_limits||{}), ...(p.hard_limits||{})}}`. -/
def applyPresetConfig (c : Config) (p : Config) : Config :=
  { window := oMerge c.window p.window
    require_same_side := oMerge c.require_same_side p.require_same_side
    weights := some (objAssign ((c.weights).getD []) ((p.weights).getD []))
    unmatched_penalty := oMerge c.unmatched_penalty p.unmatched_penalty
    hard_limits := some (hlMerge ((c.hard_limits).getD hlEmpty) ((p.hard_limits).getD hlEmpty)) }

/-- The single merge of two bundles with the later bundle's keys
winning: scalars replaced when the later bundle defines them, nested
objects united key-wise with the later bundle overriding. -/
def bundleMerge (p q : Config) : Config :=
  { window := oMerge p.window q.window
    require_same_side := oMerge p.require_same_side q.require_same_side
    weights :=
      match p.weights, q.weights with
      | none, none => none
      | pw, qw => some (objAssign (pw.getD []) (qw.getD []))
    unmatched_penalty := oMerge p.unmatched_penalty q.unmatched_penalty
    hard_limits :=
      match p.hard_limits, q.hard_limits with
      | none, none => none
      | ph, qh => some (hlMerge (ph.getD hlEmpty) (qh.getD hlEmpty)) }

end TidalHack

namespace TidalHack

lemma ov_key (b : Obj) (e : String × ℚ) : (ov b e).1 = e.1 := rfl

lemma hasKey_append (a b : Obj) (k : String) :
    hasKey (a ++ b) k = (hasKey a k || hasKey b k) := by
  unfold hasKey
  exact List.any_append

lemma hasKey_map_ov (a b : Obj) (k : String) :
    hasKey (a.map (ov b)) k = hasKey a k := by
  induction a with
  | nil => rfl
  | cons e t ih =>
    simp only [hasKey, List.map_cons, List.any_cons] at ih ⊢
    rw [ih, ov_key]

lemma hasKey_filter_of_not (a b : Obj) (k : String) (h : hasKey a k = false) :
    hasKey (b.filter (fun e => !(hasKey a e.1))) k = hasKey b k := by
  induction b with
  | nil => rfl
  | cons e t ih =>
    by_cases hkeep : hasKey a e.1 = true
    · have hek : (e.1 == k) = false := by
        cases hbe : e.1 == k
        · rfl
        · have he : e.1 = k := by simpa using hbe
          rw [he] at hkeep
          rw [hkeep] at h
          cases h
      rw [List.filter_cons_of_neg (by simp [hkeep])]
      rw [ih]
      simp only [hasKey, List.any_cons, hek, Bool.false_or]
    · have hfa : hasKey a e.1 = false := by
        cases hA : hasKey a e.1
        · rfl
        · exact absurd hA hkeep
      rw [List.filter_cons_of_pos (by simp [hfa])]
      simp only [hasKey, List.any_cons] at ih ⊢
      rw [ih]

lemma hasKey_filter_false (a b : Obj) (k : String) (h : hasKey a k = true) :
    hasKey (b.filter (fun e => !(hasKey a e.1))) k = false := by
  induction b with
  | nil => rfl
  | cons e t ih =>
    by_cases hkeep : hasKey a e.1 = true
    · rw [List.filter_cons_of_neg (by simp [hkeep])]
      exact ih
    · have hfa : hasKey a e.1 = false := by
        cases hA : hasKey a e.1
        · rfl
        · exact absurd hA hkeep
      have hek : (e.1 == k) = false := by
        cases hbe : e.1 == k
        · rfl
        · have he : e.1 = k := by simpa using hbe
          rw [he] at hfa
          rw [hfa] at h
          cases h
      rw [List.filter_cons_of_pos (by simp [hfa])]
      simp only [hasKey, List.any_cons, hek, Bool.false_or] at ih ⊢
      exact ih

lemma hasKey_objAssign (a b : Obj) (k : String) :
    hasKey (objAssign a b) k = (hasKey a k || hasKey b k) := by
  unfold objAssign
  rw [hasKey_append, hasKey_map_ov]
  cases h : hasKey a k
  · rw [hasKey_filter_of_not a b k h]
  · rw [hasKey_filter_false a b k h]
    rfl

lemma lookup_cons_pos (e : String × ℚ) (t : Obj) (k : String) (h : (e.1 == k) = true) :
    lookup (e :: t) k = some e.2 := by
  unfold lookup
  rw [@List.find?_cons_of_pos _ (fun x => x.1 == k) e t h]
  rfl

lemma lookup_cons_neg (e : String × ℚ) (t : Obj) (k : String) (h : (e.1 == k) = false) :
    lookup (e :: t) k = lookup t k := by
  unfold lookup
  rw [@List.find?_cons_of_neg _ (fun x => x.1 == k) e t (by simp [h])]

lemma lookup_append (l1 l2 : Obj) (k : String) :
    lookup (l1 ++ l2) k = (lookup l1 k).or (lookup l2 k) := by
  unfold lookup
  rw [List.find?_append]
  cases l1.find? (fun e => e.1 == k) <;> rfl

lemma lookup_map_ov (a b : Obj) (k : String) :
    lookup (a.map (ov b)) k = (lookup a k).map (fun v => (lookup b k).getD v) := by
  induction a with
  | nil => rfl
  | cons e t ih =>
    cases hek : (e.1 == k) with
    | true =>
      have he : e.1 = k := by simpa using hek
      rw [List.map_cons, lookup_cons_pos (ov b e) _ k (by rw [ov_key]; exact hek),
        lookup_cons_pos e t k hek]
      simp [ov, he]
    | false =>
      rw [List.map_cons, lookup_cons_neg (ov b e) _ k (by rw [ov_key]; exact hek),
        lookup_cons_neg e t k hek]
      exact ih

lemma lookup_filter_of_not (a b : Obj) (k : String) (h : hasKey a k = false) :
    lookup (b.filter (fun e => !(hasKey a e.1))) k = lookup b k := by
  induction b with
  | nil => rfl
  | cons e t ih =>
    by_cases hkeep : hasKey a e.1 = true
    · have hek : (e.1 == k) = false := by
        cases hbe : e.1 == k
        · rfl
        · have he : e.1 = k := by simpa using hbe
          rw [he] at hkeep
          rw [hkeep] at h
          cases h
      rw [List.filter_cons_of_neg (by simp [hkeep]), ih, lookup_cons_neg e t k hek]
    · have hfa : hasKey a e.1 = false := by
        cases hA : hasKey a e.1
        · rfl
        · exact absurd hA hkeep
      rw [List.filter_cons_of_pos (by simp [hfa])]
      cases hek : (e.1 == k) with
      | true => rw [lookup_cons_pos e _ k hek, lookup_cons_pos e t k hek]
      | false =>
        rw [lookup_cons_neg e _ k hek, lookup_cons_neg e t k hek]
        exact ih

lemma hasKey_eq_false_of_lookup_none (l : Obj) (k : String) (h : lookup l k = none) :
    hasKey l k = false := by
  induction l with
  | nil => rfl
  | cons e t ih =>
    cases hek : (e.1 == k) with
    | true =>
      rw [lookup_cons_pos e t k hek] at h
      cases h
    | false =>
      rw [lookup_cons_neg e t k hek] at h
      simp only [hasKey, List.any_cons, hek, Bool.false_or]
      exact ih h

lemma lookup_objAssign (a b : Obj) (k : String) :
    lookup (objAssign a b) k = oMerge (lookup a k) (lookup b k) := by
  unfold objAssign
  rw [lookup_append, lookup_map_ov]
  cases hA : lookup a k with
  | none =>
    have hkA : hasKey a k = false := hasKey_eq_false_of_lookup_none a k hA
    rw [lookup_filter_of_not a b k hkA]
    cases lookup b k <;> rfl
  | some v =>
    cases hB : lookup b k with
    | none => rfl
    | some w => rfl

lemma ov_ov (b c : Obj) (e : String × ℚ) : ov c (ov b e) = ov (objAssign b c) e := by
  unfold ov
  rw [lookup_objAssign]
  cases hB : lookup b e.1 <;> cases hC : lookup c e.1 <;> simp [oMerge, hB, hC]

lemma map_ov_filter (c : Obj) (p : String → Bool) (l : Obj) :
    (l.filter (fun e => p e.1)).map (ov c) = (l.map (ov c)).filter (fun e => p e.1) := by
  induction l with
  | nil => rfl
  | cons e t ih =>
    cases hp : p e.1 with
    | true =>
      rw [@List.filter_cons_of_pos _ (fun x => p x.1) e t hp, List.map_cons, List.map_cons,
        @List.filter_cons_of_pos _ (fun x => p x.1) (ov c e) (List.map (ov c) t) hp, ih]
    | false =>
      rw [@List.filter_cons_of_neg _ (fun x => p x.1) e t (by simp [hp]), List.map_cons,
        @List.filter_cons_of_neg _ (fun x => p x.1) (ov c e) (List.map (ov c) t)
          (by simp [ov, hp]), ih]

lemma objAssign_assoc (a b c : Obj) :
    objAssign (objAssign a b) c = objAssign a (objAssign b c) := by
  simp only [objAssign, List.map_append, List.filter_append, List.map_map, List.filter_filter]
  rw [List.append_assoc]
  congr 1
  · exact List.map_congr_left (fun e _ => ov_ov b c e)
  congr 1
  · exact map_ov_filter c (fun x => !(hasKey a x)) b
  · apply List.filter_congr
    intro e _
    have hmask : hasKey (List.map (ov b) a ++ List.filter (fun e => !(hasKey a e.1)) b) e.1 =
        (hasKey a e.1 || hasKey b e.1) := by
      have := hasKey_objAssign a b e.1
      simpa [objAssign] using this
    rw [hmask]
    cases hA : hasKey a e.1 <;> cases hB : hasKey b e.1 <;> rfl

lemma oMerge_assoc {α : Type} (a b c : Option α) :
    oMerge (oMerge a b) c = oMerge a (oMerge b c) := by
  cases c <;> rfl

lemma hlMerge_assoc (a b c : HardLimits) :
    hlMerge (hlMerge a b) c = hlMerge a (hlMerge b c) := by
  simp [hlMerge, oMerge_assoc]

lemma bundleMerge_weights_getD (p q : Config) :
    ((bundleMerge p q).weights).getD [] =
      objAssign ((p.weights).getD []) ((q.weights).getD []) := by
  simp only [bundleMerge]
  cases hp : p.weights <;> cases hq : q.weights <;> rfl

lemma bundleMerge_hard_limits_getD (p q : Config) :
    ((bundleMerge p q).hard_limits).getD hlEmpty =
      hlMerge ((p.hard_limits).getD hlEmpty) ((q.hard_limits).getD hlEmpty) := by
  simp only [bundleMerge]
  cases hp : p.hard_limits <;> cases hq : q.hard_limits <;> rfl

lemma applyPresetConfig_assoc (c p q : Config) :
    applyPresetConfig (applyPresetConfig c p) q = applyPresetConfig c (bundleMerge p q) := by
  unfold applyPresetConfig
  congr 1
  · exact oMerge_assoc c.window p.window q.window
  · exact oMerge_assoc c.require_same_side p.require_same_side q.require_same_side
  · rw [bundleMerge_weights_getD, ← objAssign_assoc]
    rfl
  · exact oMerge_assoc c.unmatched_penalty p.unmatched_penalty q.unmatched_penalty
  · rw [bundleMerge_hard_limits_getD, ← hlMerge_assoc]
    rfl

end TidalHack

/-- C6: `applyPreset` merges the bundle into the current Config by field
replacement for the scalars and key-wise union for the nested objects
(`weights` shown at the lookup level: bundle keys override, absent keys
are preserved; `hard_limits` field-wise), applying two presets in
sequence equals one merge with the later bundle's keys winning, and
applying `Strict` then `Lenient` yields a Config whose `hard_limits`
equal `Lenient`'s values. -/
theorem c6_preset_merge :
    (∀ (c p : Config),
      (applyPresetConfig c p).window = oMerge c.window p.window ∧
      (applyPresetConfig c p).require_same_side =
        oMerge c.require_same_side p.require_same_side ∧
      (applyPresetConfig c p).unmatched_penalty =
        oMerge c.unmatched_penalty p.unmatched_penalty ∧
      (applyPresetConfig c p).hard_limits =
        some (hlMerge ((c.hard_limits).getD hlEmpty) ((p.hard_limits).getD hlEmpty))) ∧
    (∀ (c p : Config) (k : String),
      lookup (((applyPresetConfig c p).weights).getD []) k =
        oMerge (lookup ((c.weights).getD []) k) (lookup ((p.weights).getD []) k)) ∧
    (∀ (c p q : Config),
      applyPresetConfig (applyPresetConfig c p) q = applyPresetConfig c (bundleMerge p q)) ∧
    (∀ c : Config,
      (applyPresetConfig (applyPresetConfig c presetStrict) presetLenient).hard_limits =
        presetLenient.hard_limits) := by
  refine ⟨fun c p => ⟨rfl, rfl, rfl, rfl⟩, fun c p k => ?_, applyPresetConfig_assoc, fun c => rfl⟩
  exact lookup_objAssign ((c.weights).getD []) ((p.weights).getD []) k

namespace TidalHack

/-- The keys of the nested `hard_limits` object. -/
inductive LimitKey
  | dx
  | clock
  | cost
deriving DecidableEq, Repr

/-- `{...(c.hard_limits || {}), [k]: v}` — set one hard-limits key. -/
def hlSet (hl : HardLimits) (k : LimitKey) (v : ℚ) : HardLimits :=
  match k with
  | .dx => { hl with dx := some v }
  | .clock => { hl with clock := some v }
  | .cost => { hl with cost := some v }

/-- The three preset names of the closed catalog. -/
inductive PresetName
  | strict
  | balanced
  | lenient
deriving DecidableEq, Repr

/-- `PRESETS[name]`. -/
def presetBundle : PresetName → Config
  | .strict => presetStrict
  | .balanced => presetBalanced
  | .lenient => presetLenient

/-- The config mutations of the interactive surface: the node `onChange`
handlers in the `library` definition of `src/app/interactive/page.tsx`
(`onChangeWindow`, `onChangeSame`, the limits `onChange`, the unmatched
`onChange`), and the `setConfig` part of `applyPreset`. -/
inductive ConfigOp
  | setWindow (v : ℚ)
  | setRequireSame (v : Bool)
  | setLimit (k : LimitKey) (v : ℚ)
  | setPenalty (v : ℚ)
  | presetOp (n : PresetName)
deriving Repr

/-- Apply one interactive config mutation, as its `setConfig` updater
does. -/
def applyConfigOp (c : Config) : ConfigOp → Config
  | .setWindow v => { c with window := some v }
  | .setRequireSame v => { c with require_same_side := some v }
  | .setLimit k v =>
      { c with hard_limits := some (hlSet ((c.hard_limits).getD hlEmpty) k v) }
  | .setPenalty v => { c with unmatched_penalty := some v }
  | .presetOp n => applyPresetConfig c (presetBundle n)

/-- The top-level keys `JSON.stringify` emits for an interactive Config:
present fields, in the insertion order of the initial state object. -/
def configKeys (c : Config) : List String :=
  (if c.window.isSome then ["window"] else []) ++
  (if c.require_same_side.isSome then ["require_same_side"] else []) ++
  (if c.weights.isSome then ["weights"] else []) ++
  (if c.unmatched_penalty.isSome then ["unmatched_penalty"] else []) ++
  (if c.hard_limits.isSome then ["hard_limits"] else [])

/-- All five top-level fields of an interactive Config are present. -/
def allDefined (c : Config) : Bool :=
  c.window.isSome && c.require_same_side.isSome && c.weights.isSome &&
  c.unmatched_penalty.isSome && c.hard_limits.isSome

/-- The fixed-shape `weights` object of the workbench surface
(`src/app/workbench/page.tsx` line 8). -/
structure WWeights where
  dist : Option ℚ
  clock : Option ℚ
  depth : Option ℚ
  size : Option ℚ
deriving DecidableEq, Repr

/-- The `penalties: { side?, type? }` object of the workbench surface
(`src/app/workbench/page.tsx` line 9). -/
structure WPenalties where
  side : Option ℚ
  type : Option ℚ
deriving DecidableEq, Repr

/-- The `Config` type of `src/app/workbench/page.tsx` (lines 5–12): six
top-level fields, including `penalties`, which the §3 schema does not
have. -/
structure WConfig where
  window : Option ℚ
  require_same_side : Option Bool
  weights : Option WWeights
  penalties : Option WPenalties
  unmatched_penalty : Option ℚ
  hard_limits : Option HardLimits
deriving DecidableEq, Repr

/-- The initial workbench config (`useState` at lines 24–31). -/
def wconfigInit : WConfig :=
  { window := some 5
    require_same_side := some false
    weights := some ⟨some 1, some (3/10), some (5/100), some (2/100)⟩
    penalties := some ⟨some 5, some 2⟩
    unmatched_penalty := some 20
    hard_limits := some ⟨some 5, some 3, some 12⟩ }

/-- The keys of the nested `weights` object on the workbench. -/
inductive WeightKey
  | dist
  | clock
  | depth
  | size
deriving DecidableEq, Repr

/-- The keys of the nested `penalties` object on the workbench. -/
inductive PenaltyKey
  | side
  | type
deriving DecidableEq, Repr

/-- Set one weights key: `updateNested("weights", {[k]: v})`. -/
def wwSet (w : WWeights) (k : WeightKey) (v : ℚ) : WWeights :=
  match k with
  | .dist => { w with dist := some v }
  | .clock => { w with clock := some v }
  | .depth => { w with depth := some v }
  | .size => { w with size := some v }

/-- Set one penalties key: `updateNested("penalties", {[k]: v})`. -/
def wpSet (w : WPenalties) (k : PenaltyKey) (v : ℚ) : WPenalties :=
  match k with
  | .side => { w with side := some v }
  | .type => { w with type := some v }

/-- The workbench config mutations: `updateConfig` for the scalars and
`updateNested` for the three nested objects
(`src/app/workbench/page.tsx` lines 49–55 and the input handlers). -/
inductive WConfigOp
  | setWindow (v : ℚ)
  | setRequireSame (v : Bool)
  | setWeight (k : WeightKey) (v : ℚ)
  | setPenaltyKey (k : PenaltyKey) (v : ℚ)
  | setUnmatched (v : ℚ)
  | setLimit (k : LimitKey) (v : ℚ)
deriving Repr

/-- Apply one workbench config mutation. -/
def applyWConfigOp (c : WConfig) : WConfigOp → WConfig
  | .setWindow v => { c with window := some v }
  | .setRequireSame v => { c with require_same_side := some v }
  | .setWeight k v =>
      { c with weights := some (wwSet ((c.weights).getD ⟨none, none, none, none⟩) k v) }
  | .setPenaltyKey k v =>
      { c with penalties := some (wpSet ((c.penalties).getD ⟨none, none⟩) k v) }
  | .setUnmatched v => { c with unmatched_penalty := some v }
  | .setLimit k v =>
      { c with hard_limits := some (hlSet ((c.hard_limits).getD hlEmpty) k v) }

/-- The top-level keys `JSON.stringify(config)` emits on the workbench:
present fields, in the insertion order of the initial state object. -/
def wconfigKeys (c : WConfig) : List String :=
  (if c.window.isSome then ["window"] else []) ++
  (if c.require_same_side.isSome then ["require_same_side"] else []) ++
  (if c.weights.isSome then ["weights"] else []) ++
  (if c.penalties.isSome then ["penalties"] else []) ++
  (if c.unmatched_penalty.isSome then ["unmatched_penalty"] else []) ++
  (if c.hard_limits.isSome then ["hard_limits"] else [])

/-- All six top-level fields of a workbench Config are present. -/
def wAllDefined (c : WConfig) : Bool :=
  c.window.isSome && c.require_same_side.isSome && c.weights.isSome &&
  c.penalties.isSome && c.unmatched_penalty.isSome && c.hard_limits.isSome

/-- The five §3 top-level field names, in serialization order. -/
def schemaFields : List String :=
  ["window", "require_same_side", "weights", "unmatched_penalty", "hard_limits"]

end TidalHack

namespace TidalHack

/-- The engine's answer to one evaluation request, as the pages observe
it through `fetch`: a success status whose body parses (or fails to
parse, with the parse error's message), a non-success status with the
body text read by `res.text()`, or a transport failure with the thrown
error's message. -/
inductive EngineResponse
  | ok (parseError : Option String)
  | httpError (body : String)
  | transportFailure (msg : String)
deriving DecidableEq, Repr

/-- `e.message || "Evaluation failed"` — the stored message is the
thrown error's text when non-empty, else the generic fallback. -/
def failMessage (m : String) : String :=
  if m == "" then "Evaluation failed" else m

/-- The interactive page's state after `evaluate`'s try/catch/finally
resolves (`src/app/interactive/page.tsx` lines 208–222): `warning`,
`status` and `loading` as left by the handlers. -/
structure EvalOutcome where
  warning : Option String
  status : Option String
  loading : Bool
deriving DecidableEq, Repr

/-- The terminal interactive state for one engine response: success
clears the warning and reports success; any failure path (non-success
status, unparseable payload, transport failure) stores the message via
`e.message || "Evaluation failed"` and reports failure; `finally` always
clears `loading`. -/
def interactiveSettle (r : EngineResponse) : EvalOutcome :=
  match r with
  | .ok none =>
      { warning := none, status := some "Evaluation succeeded", loading := false }
  | .ok (some m) =>
      { warning := some (failMessage m), status := some "Evaluation failed", loading := false }
  | .httpError b =>
      { warning := some (failMessage b), status := some "Evaluation failed", loading := false }
  | .transportFailure m =>
      { warning := some (failMessage m), status := some "Evaluation failed", loading := false }

/-- The remediation hint `evaluate` shows when the validator rejects. -/
def graphInvalidHint : String :=
  "Add Evaluate from the library, connect Input → Gate → Evaluate, then run."

/-- `evaluate` from `src/app/interactive/page.tsx` (lines 199–223) as a
function of the graph, the prior `loading` flag and the engine's
response; the second component records whether a request was dispatched.
The function checks only `isValidGraph` — it never consults the busy
flag, which is why `loadingBefore` is a parameter it ignores on the
dispatch decision. -/
def evaluate (nodes : List BoardNode) (edges : List BoardEdge)
    (loadingBefore : Bool) (r : EngineResponse) : EvalOutcome × Bool :=
  if isValidGraph nodes edges then (interactiveSettle r, true)
  else ({ warning := some graphInvalidHint, status := none, loading := loadingBefore }, false)

/-- The workbench page's state after `run` resolves
(`src/app/workbench/page.tsx` lines 57–81). -/
structure WRunOutcome where
  error : Option String
  loading : Bool
  kpisSet : Bool
deriving DecidableEq, Repr

/-- `run` from `src/app/workbench/page.tsx`: success stores KPIs and
artifacts; any failure path stores `e.message || "Evaluation failed"`;
`finally` always clears `loading`. -/
def workbenchRun (r : EngineResponse) : WRunOutcome :=
  match r with
  | .ok none => { error := none, loading := false, kpisSet := true }
  | .ok (some m) => { error := some (failMessage m), loading := false, kpisSet := false }
  | .httpError b => { error := some (failMessage b), loading := false, kpisSet := false }
  | .transportFailure m => { error := some (failMessage m), loading := false, kpisSet := false }

/-- The workbench Run button's `disabled` attribute:
`disabled={loading}` (`src/app/workbench/page.tsx` line 161). -/
def workbenchRunDisabled (loading : Bool) : Bool := loading

/-- The interactive Evaluate node's Run button
(`src/app/interactive/page.tsx` lines 147–149): a plain `onClick`
handler with no `disabled` attribute, so the busy flag never disables
it. -/
def interactiveRunDisabled (_loading : Bool) : Bool := false

/-- Whether a click on the interactive Run button dispatches a request:
the button is never disabled, and `evaluate` dispatches whenever the
graph is valid, regardless of the busy flag. -/
def interactiveClickDispatches (loading : Bool) (nodes : List BoardNode)
    (edges : List BoardEdge) : Bool :=
  !(interactiveRunDisabled loading) && isValidGraph nodes edges

/-- Requests dispatched by two back-to-back clicks on the interactive
Run button, the second arriving while the first request is still in
flight (`loading = true`). -/
def backToBackRequestCount (nodes : List BoardNode) (edges : List BoardEdge) : Nat :=
  (if interactiveClickDispatches false nodes edges then 1 else 0) +
  (if interactiveClickDispatches true nodes edges then 1 else 0)

end TidalHack

/-- C2: the claim fails as a code bug — the interactive Run button is
never disabled by the busy flag and `evaluate` never consults it, so two
back-to-back triggers on a valid graph while the first request is still
in flight dispatch two requests; the workbench button, by contrast, is
gated (`disabled={loading}`). -/
theorem c2_busy_flag_not_gated :
    backToBackRequestCount exampleNodes exampleEdges = 2 ∧
    interactiveRunDisabled true = false ∧
    (evaluate exampleNodes exampleEdges true (.ok none)).2 = true ∧
    workbenchRunDisabled true = true := by
  refine ⟨by decide, rfl, by decide, rfl⟩

/-- C4: every failure response — non-success status, unparseable
payload, or transport failure — ends the attempt in the Failed state
with the busy flag cleared, storing the engine-provided message when
non-empty and the generic "Evaluation failed" otherwise, on both
surfaces; in particular a failure with body "bad weights" ends Failed
with message "bad weights". -/
theorem c4_failure_handling (r : EngineResponse) (m : String)
    (hr : r ≠ .ok none) (hm : m ≠ "") :
    (interactiveSettle r).status = some "Evaluation failed" ∧
    (interactiveSettle r).loading = false ∧
    ((interactiveSettle r).warning).isSome = true ∧
    (workbenchRun r).loading = false ∧
    ((workbenchRun r).error).isSome = true ∧
    (interactiveSettle (.httpError m)).warning = some m ∧
    (interactiveSettle (.transportFailure m)).warning = some m ∧
    (workbenchRun (.httpError m)).error = some m ∧
    (interactiveSettle (.httpError "")).warning = some "Evaluation failed" ∧
    (interactiveSettle (.httpError "bad weights")).warning = some "bad weights" ∧
    (interactiveSettle (.httpError "bad weights")).status = some "Evaluation failed" ∧
    (workbenchRun (.httpError "bad weights")).error = some "bad weights" := by
  have hbe : (m == "") = false := by
    cases hb : m == ""
    · rfl
    · exact absurd (by simpa using hb) hm
  have hmsg : failMessage m = m := by
    unfold failMessage
    rw [hbe]
    rfl
  have hI : ∀ b : String, (interactiveSettle (.httpError b)).warning = some (failMessage b) := by
    intro b
    rfl
  have hstat : (interactiveSettle r).status = some "Evaluation failed" ∧
      (interactiveSettle r).loading = false ∧
      ((interactiveSettle r).warning).isSome = true ∧
      (workbenchRun r).loading = false ∧
      ((workbenchRun r).error).isSome = true := by
    cases r with
    | ok pe =>
      cases pe with
      | none => exact absurd rfl hr
      | some pm => exact ⟨rfl, rfl, rfl, rfl, rfl⟩
    | httpError b => exact ⟨rfl, rfl, rfl, rfl, rfl⟩
    | transportFailure tm => exact ⟨rfl, rfl, rfl, rfl, rfl⟩
  refine ⟨hstat.1, hstat.2.1, hstat.2.2.1, hstat.2.2.2.1, hstat.2.2.2.2, ?_, ?_, ?_,
    rfl, ?_, rfl, ?_⟩
  · rw [hI m, hmsg]
  · show some (failMessage m) = some m
    rw [hmsg]
  · show some (failMessage m) = some m
    rw [hmsg]
  · show some (failMessage "bad weights") = some "bad weights"
    rfl
  · show some (failMessage "bad weights") = some "bad weights"
    rfl

/-- C4 witness at the failure response with body "bad weights". -/
theorem c4_failure_handling_witness :
    (EngineResponse.httpError "bad weights" ≠ .ok none) ∧
    ("bad weights" ≠ "") ∧
    (interactiveSettle (.httpError "bad weights")).status = some "Evaluation failed" ∧
    (interactiveSettle (.httpError "bad weights")).warning = some "bad weights" ∧
    (interactiveSettle (.httpError "bad weights")).loading = false :=
  ⟨by decide, by decide,
   (c4_failure_handling (.httpError "bad weights") "bad weights" (by decide) (by decide)).1,
   (c4_failure_handling (.httpError "bad weights") "bad weights" (by decide) (by decide)).2.2.2.2.2.2.2.2.2.1,
   (c4_failure_handling (.httpError "bad weights") "bad weights" (by decide) (by decide)).2.1⟩

/-- C5: when the validator rejects the graph, `evaluate` emits the
remediation hint, clears the status back to Idle, leaves the busy flag
untouched and sends no request; in particular the empty graph aborts
with no request sent. -/
theorem c5_invalid_graph_aborts (nodes : List BoardNode) (edges : List BoardEdge)
    (lb : Bool) (r : EngineResponse) (h : isValidGraph nodes edges = false) :
    evaluate nodes edges lb r =
      ({ warning := some graphInvalidHint, status := none, loading := lb }, false) ∧
    evaluate [] [] false r =
      ({ warning := some graphInvalidHint, status := none, loading := false }, false) := by
  constructor
  · unfold evaluate
    rw [h]
    rfl
  · rfl

/-- C5 witness: the empty graph with an idle busy flag. -/
theorem c5_invalid_graph_aborts_witness :
    evaluate [] [] false (.ok none) =
      ({ warning := some graphInvalidHint, status := none, loading := false }, false) :=
  (c5_invalid_graph_aborts [] [] false (.ok none) (by decide)).1

namespace TidalHack

lemma oMerge_isSome {α : Type} (old new : Option α) (h : old.isSome = true) :
    (oMerge old new).isSome = true := by
  cases new
  · exact h
  · rfl

end TidalHack

/-- C3 counterexample: the workbench (direct-edit) surface serializes
its whole config state, whose initial value already carries the sixth
top-level field `penalties`, so the request body it sends does not
consist of exactly the five §3 fields. -/
theorem c3_counterexample :
    wconfigKeys wconfigInit ≠ schemaFields ∧
    "penalties" ∈ wconfigKeys wconfigInit := by
  refine ⟨by decide, by decide⟩

/-- C3 amended: the interactive surface's request body carries exactly
the five §3 top-level fields (all reachable configs keep all five
defined), while the workbench surface's body carries those five plus the
extra `penalties` field — six top-level keys, preserved by every
workbench mutation. -/
theorem c3_amended :
    (∀ c : Config, allDefined c = true → configKeys c = schemaFields) ∧
    allDefined configInit = true ∧
    (∀ (c : Config) (op : ConfigOp),
      allDefined c = true → allDefined (applyConfigOp c op) = true) ∧
    (∀ c : WConfig, wAllDefined c = true →
      wconfigKeys c = ["window", "require_same_side", "weights", "penalties",
        "unmatched_penalty", "hard_limits"]) ∧
    wAllDefined wconfigInit = true ∧
    (∀ (c : WConfig) (op : WConfigOp),
      wAllDefined c = true → wAllDefined (applyWConfigOp c op) = true) := by
  refine ⟨?_, by decide, ?_, ?_, by decide, ?_⟩
  · intro c h
    obtain ⟨w, rs, ws, up, hl⟩ := c
    cases w <;> cases rs <;> cases ws <;> cases up <;> cases hl <;>
      simp_all [allDefined, configKeys, schemaFields]
  · intro c op h
    cases op <;> simp_all [applyConfigOp, allDefined, applyPresetConfig, oMerge_isSome]
  · intro c h
    obtain ⟨w, rs, ws, pe, up, hl⟩ := c
    cases w <;> cases rs <;> cases ws <;> cases pe <;> cases up <;> cases hl <;>
      simp_all [wAllDefined, wconfigKeys]
  · intro c op h
    cases op <;> simp_all [applyWConfigOp, wAllDefined]

/-- C3 amended, witness at the two initial configs. -/
theorem c3_amended_witness :
    configKeys configInit = schemaFields ∧
    wconfigKeys wconfigInit = ["window", "require_same_side", "weights", "penalties",
      "unmatched_penalty", "hard_limits"] ∧
    allDefined (applyConfigOp configInit (.setWindow 7)) = true :=
  ⟨c3_amended.1 configInit c3_amended.2.1,
   c3_amended.2.2.2.1 wconfigInit c3_amended.2.2.2.2.1,
   c3_amended.2.2.1 configInit (.setWindow 7) c3_amended.2.1⟩

namespace TidalHack

/-- One interactive session for the ordering guarantee: the current
config (`configRef.current` mirrors `config`), the board, and the body
of the in-flight request, if one was dispatched.  `fetch` receives
`JSON.stringify(configRef.current)`, a string built synchronously at
submission time, so the in-flight body is the config as of `submit`. -/
structure Session where
  config : Config
  board : BoardState
  inflightBody : Option Config
deriving Repr

/-- Any mutation the operator can perform while a request is in flight:
a config mutation (slider, checkbox, preset) or a board mutation
(add/remove/connect). -/
inductive SessionOp
  | configOp (op : ConfigOp)
  | boardOp (op : BoardOp)
deriving Repr

/-- Apply one session mutation; neither kind touches the in-flight
body. -/
def applySessionOp (s : Session) : SessionOp → Session
  | .configOp op => { s with config := applyConfigOp s.config op }
  | .boardOp op => { s with board := applyOp s.board op }

/-- Dispatch an evaluation request: the body is serialized from the
current config at this moment. -/
def submit (s : Session) : Session :=
  { s with inflightBody := some s.config }

/-- Apply a list of session mutations in order. -/
def applySessionOps (s : Session) (ops : List SessionOp) : Session :=
  ops.foldl applySessionOp s

lemma applySessionOps_inflight (ops : List SessionOp) :
    ∀ s : Session, (applySessionOps s ops).inflightBody = s.inflightBody := by
  induction ops with
  | nil => intro s; rfl
  | cons op t ih =>
    intro s
    have hstep : (applySessionOp s op).inflightBody = s.inflightBody := by
      cases op <;> rfl
    calc (applySessionOps s (op :: t)).inflightBody
        = (applySessionOps (applySessionOp s op) t).inflightBody := rfl
      _ = (applySessionOp s op).inflightBody := ih (applySessionOp s op)
      _ = s.inflightBody := hstep

end TidalHack

/-- C9: mutations performed while a request is in flight are not
reflected in that request — after `submit`, any sequence of node, edge
or config mutations leaves the in-flight body equal to the config as
serialized at submission time — while a subsequent submission uses the
mutated config. -/
theorem c9_inflight_snapshot (s : Session) (ops : List SessionOp) :
    (applySessionOps (submit s) ops).inflightBody = some s.config ∧
    (submit (applySessionOps (submit s) ops)).inflightBody =
      some (applySessionOps (submit s) ops).config := by
  refine ⟨?_, rfl⟩
  rw [applySessionOps_inflight ops (submit s)]
  rfl
